import Mathlib

/-!
Shallow embedding of the cpufreq-bindings library core
(src/cpufreq-bindings.c) for checking its natural-language
specification.

File contents are modelled as lists of byte values (`List Nat`, ASCII).
System calls are modelled through an explicit `World` record that fixes
the outcome of `open`, `pread`, `pwrite` and `close` for the one file a
call touches; each modelled routine returns its result value together
with the final `errno` and the number of `open`/`close` invocations it
performed.

`strtoul` is modelled with glibc/LP64 semantics as used on the library's
target platform: `unsigned long` is 64 bits, `errno` is set only on
ERANGE overflow of the accumulated magnitude (no conversion performed
leaves `errno` untouched and yields 0), a leading `-` negates modulo
2^64, and base 0 auto-detects `0x`/`0X` (hex) and leading `0` (octal).
The scratch parse buffer of `read_file_u32arr_template` is idealised as
zero-filled beyond the bytes `pread` deposits, so the C string it holds
is exactly the read prefix of the file content truncated at the first
NUL byte.
-/

def ERANGE : Nat := 34

def ULONG_MAX : Nat := 2 ^ 64 - 1

def U32_MOD : Nat := 2 ^ 32

def O_RDONLY : Int := 0

def O_RDWR : Int := 2

/-- C `isspace` on the bytes relevant here: space (32) and 9..13. -/
def isWS (c : Nat) : Bool := decide (c = 32 ∨ (9 ≤ c ∧ c ≤ 13))

/-- Value of an ASCII hexadecimal digit, if it is one. -/
def hexVal (c : Nat) : Option Nat :=
  if 48 ≤ c ∧ c ≤ 57 then some (c - 48)
  else if 97 ≤ c ∧ c ≤ 102 then some (c - 87)
  else if 65 ≤ c ∧ c ≤ 70 then some (c - 55)
  else none

/-- Value of a digit in the given base, if valid. -/
def digitInBase (base c : Nat) : Option Nat :=
  match hexVal c with
  | some d => if d < base then some d else none
  | none => none

/-- Accumulate the digit string prefix of `l` in `base` onto `acc`,
stopping at the first non-digit (mathematical value, no clamping). -/
def parseDigitsAcc (base : Nat) : List Nat → Nat → Nat
  | [], acc => acc
  | c :: rest, acc =>
    match digitInBase base c with
    | none => acc
    | some d => parseDigitsAcc base rest (acc * base + d)

/-- Optional sign character; `true` means negative. -/
def parseSignFn : List Nat → Bool × List Nat
  | [] => (false, [])
  | c :: r =>
    if c = 43 then (false, r)
    else if c = 45 then (true, r)
    else (false, c :: r)

def headIsHex (l : List Nat) : Bool :=
  match l with
  | d :: _ => (hexVal d).isSome
  | [] => false

/-- Base detection of `strtoul(_, _, 0)`: `0x`/`0X` followed by a hex
digit selects base 16, a leading `0` selects base 8, anything else
base 10 (the `"0"`-alone case lands in base 10, which yields the same
value 0 as C's octal reading of it). -/
def detectBase : List Nat → Nat × List Nat
  | [] => (10, [])
  | c :: r =>
    if c = 48 then
      match r with
      | [] => (10, c :: r)
      | c2 :: r2 =>
        if ((c2 = 120 ∨ c2 = 88) ∧ headIsHex r2) then (16, r2)
        else (8, c :: c2 :: r2)
    else (10, c :: r)

/-- Digit-string value after base detection. -/
def digitsOf (s2 : List Nat) : Nat :=
  parseDigitsAcc (detectBase s2).1 (detectBase s2).2 0

/-- `strtoul` after leading whitespace has been skipped: returns the
`unsigned long` value and whether ERANGE was raised. -/
def strtoulCore (s : List Nat) : Nat × Bool :=
  let sg := parseSignFn s
  let m := digitsOf sg.2
  if ULONG_MAX < m then (ULONG_MAX, true)
  else if sg.1 then ((2 ^ 64 - m) % 2 ^ 64, false)
  else (m, false)

/-- glibc `strtoul(s, NULL, 0)` on a byte string. -/
def strtoul (s : List Nat) : Nat × Bool :=
  strtoulCore (s.dropWhile isWS)

/-- Worker of `strtok_r` tokenisation with delimiter `" "`:
`acc` is the reversed current token. -/
def splitGo : List Nat → List Nat → List (List Nat)
  | [], acc => if acc = [] then [] else [acc.reverse]
  | c :: rest, acc =>
    if c = 32 then
      if acc = [] then splitGo rest []
      else acc.reverse :: splitGo rest []
    else splitGo rest (c :: acc)

/-- The token sequence `strtok_r(buf, " ", _)` produces. -/
def splitTokens (l : List Nat) : List (List Nat) := splitGo l []

/-- `strcspn(buf, "\n")` on the buffer model: index of the first
newline (10) or NUL (0) byte, or the buffer length if none occurs. -/
def strcspnNl : List Nat → Nat
  | [] => 0
  | c :: rest => if c = 10 ∨ c = 0 then 0 else strcspnNl rest + 1

/-- The newline-trim step `buf[strcspn(buf, "\n")] = '\0'`. -/
def stripNewline (l : List Nat) : List Nat := l.set (strcspnNl l) 0

/-- The C string held by the scratch buffer after a successful read:
the first `buflen` content bytes, truncated at the first NUL. -/
def cstrOf (content : List Nat) (buflen : Nat) : List Nat :=
  (content.take buflen).takeWhile (fun c => c != 0)

/-- Outcome of the parsing part of `read_file_u32arr_template`:
the element count `i`, the final array contents, and `errno`. -/
structure ParseOut where
  count : Nat
  arr : List Nat
  errno : Nat
deriving DecidableEq, Repr

/-- The `strtok_r` loop of `read_file_u32arr_template` (lines 112-126
of the source): parse tokens while `i < len`, abort wiping the count on
a parse error, and report ERANGE when a token remains unconsumed. -/
def tokLoop (len : Nat) : List (List Nat) → Nat → List Nat → Nat → ParseOut
  | [], i, arr, errn => ⟨i, arr, errn⟩
  | t :: rest, i, arr, errn =>
    if i < len then
      let r := strtoul t
      let arr1 := arr.set i (r.1 % U32_MOD)
      if r.2 then ⟨0, arr1, ERANGE⟩
      else tokLoop len rest (i + 1) arr1 0
    else ⟨0, arr, ERANGE⟩

/-- The `len == 1` direct-parse branch (lines 103-109): `errno = 0`,
`arr[0] = strtoul(buf, NULL, 0)`, count 1 unless errno was raised. -/
def parseBranchDirect (cstr arr : List Nat) : ParseOut :=
  let r := strtoul cstr
  let arr1 := arr.set 0 (r.1 % U32_MOD)
  if r.2 then ⟨0, arr1, ERANGE⟩ else ⟨1, arr1, 0⟩

/-- The tokenising branch (lines 111-126). -/
def parseBranchTok (len : Nat) (cstr arr : List Nat) (errn : Nat) : ParseOut :=
  tokLoop len (splitTokens cstr) 0 arr errn

/-- The branch split on `len == 1` of `read_file_u32arr_template`. -/
def parseBody (len : Nat) (cstr arr : List Nat) (errn : Nat) : ParseOut :=
  if len = 1 then parseBranchDirect cstr arr
  else parseBranchTok len cstr arr errn

/-- Fixed outcomes of the system calls a single modelled library call
may perform, plus the `errno` value at entry and the (uninitialised)
stack bytes past the serialised digits of the write buffer. -/
structure World where
  openRet : Int
  openErrno : Nat
  preadErr : Option Nat
  content : List Nat
  pwriteErr : Option Nat
  closeErrno : Nat
  stack : Nat → Nat
  errno0 : Nat

/-- `conditional_close` (lines 50-59): save `errno`, close when `cond`,
restore `errno`. Returns the resulting `errno` and the number of
`close` calls made. -/
def conditional_close (cond : Bool) (errn : Nat) (w : World) : Nat × Nat :=
  let err_save := errn
  let _errno_during_close := if cond then w.closeErrno else errn
  (err_save, if cond then 1 else 0)

/-- `pread(fd, buf, len, 0)` into a caller buffer `buf0` of length
`len`: returns (return value, buffer afterwards, errno afterwards). -/
def preadModel (len : Nat) (buf0 : List Nat) (w : World) (e : Nat) :
    Int × List Nat × Nat :=
  match w.preadErr with
  | some err => (-1, buf0, err)
  | none =>
    let data := w.content.take len
    ((data.length : Int), data ++ buf0.drop data.length, e)

/-- `pwrite(fd, buf, len, 0)`: returns (return value, bytes the kernel
accepted, errno afterwards). -/
def pwriteModel (buf : List Nat) (w : World) (e : Nat) :
    Int × List Nat × Nat :=
  match w.pwriteErr with
  | some err => (-1, [], err)
  | none => ((buf.length : Int), buf, e)

/-- Result of `read_file_str_template`. -/
structure StrResult where
  ret : Int
  buf : List Nat
  errno : Nat
  opens : Nat
  closes : Nat
deriving Repr

/-- `read_file_str_template` (lines 61-74). -/
def read_file_str (fd : Int) (len : Nat) (buf0 : List Nat) (w : World) :
    StrResult :=
  if fd ≤ 0 then
    if w.openRet ≤ 0 then
      ⟨-1, buf0, w.openErrno, 1, 0⟩
    else
      let p := preadModel len buf0 w w.errno0
      let c := conditional_close true p.2.2 w
      ⟨p.1, stripNewline p.2.1, c.1, 1, c.2⟩
  else
    let p := preadModel len buf0 w w.errno0
    let c := conditional_close false p.2.2 w
    ⟨p.1, stripNewline p.2.1, c.1, 0, c.2⟩

/-- Result of a write-side template call. -/
structure WriteResult where
  ret : Int
  offset : Nat
  data : List Nat
  errno : Nat
  opens : Nat
  closes : Nat
deriving Repr

/-- `write_file_str_template` (lines 76-87). -/
def write_file_str (fd : Int) (buf : List Nat) (w : World) : WriteResult :=
  if fd ≤ 0 then
    if w.openRet ≤ 0 then
      ⟨-1, 0, [], w.openErrno, 1, 0⟩
    else
      let p := pwriteModel buf w w.errno0
      let c := conditional_close true p.2.2 w
      ⟨p.1, 0, p.2.1, c.1, 1, c.2⟩
  else
    let p := pwriteModel buf w w.errno0
    let c := conditional_close false p.2.2 w
    ⟨p.1, 0, p.2.1, c.1, 0, c.2⟩

/-- Result of `read_file_u32arr_template`. -/
structure ArrResult where
  ret : Nat
  arr : List Nat
  errno : Nat
  opens : Nat
  closes : Nat
deriving Repr

/-- The read-and-parse body of `read_file_u32arr_template`
(lines 102-128): parse only when `pread` returned more than zero. -/
def arrInner (buflen len : Nat) (arr0 : List Nat) (w : World) (e : Nat) :
    ParseOut :=
  match w.preadErr with
  | some err => ⟨0, arr0, err⟩
  | none =>
    if 0 < (w.content.take buflen).length then
      parseBody len (cstrOf w.content buflen) arr0 e
    else ⟨0, arr0, e⟩

/-- `read_file_u32arr_template` (lines 89-131); the scratch buffer has
`len * (U32_MAX_LEN + 1) + 1 = len * 13 + 1` bytes. -/
def read_file_u32arr (fd : Int) (len : Nat) (arr0 : List Nat) (w : World) :
    ArrResult :=
  if fd ≤ 0 then
    if w.openRet ≤ 0 then
      ⟨0, arr0, w.openErrno, 1, 0⟩
    else
      let p := arrInner (len * 13 + 1) len arr0 w w.errno0
      let c := conditional_close true p.errno w
      ⟨p.count, p.arr, c.1, 1, c.2⟩
  else
    let p := arrInner (len * 13 + 1) len arr0 w w.errno0
    let c := conditional_close false p.errno w
    ⟨p.count, p.arr, c.1, 0, c.2⟩

/-- `read_file_u32_template` (lines 133-137): delegate to the array
codec with a one-element array initialised to 0 and return the slot
(and, for observation, the final errno). -/
def read_file_u32 (fd : Int) (w : World) : Nat × Nat :=
  let r := read_file_u32arr fd 1 [0] w
  (r.arr.headD 0, r.errno)

/-- Decimal ASCII digits of `v`, high digit first (`fuel` bounds the
digit count; 10 digits cover every `uint32_t`). -/
def decAsciiAux : Nat → Nat → List Nat
  | 0, _ => []
  | fuel + 1, v => if v = 0 then [] else decAsciiAux fuel (v / 10) ++ [48 + v % 10]

/-- `snprintf(buf, 12, "%PRIu32, val)` digit string. -/
def decAscii (v : Nat) : List Nat :=
  if v = 0 then [48] else decAsciiAux 10 v

/-- The 12-byte stack buffer of `write_file_u32_template` after
`snprintf`: digits, a NUL terminator, then untouched stack bytes. -/
def snprintf_u32 (val : Nat) (junk : Nat → Nat) : List Nat :=
  let d := decAscii val ++ [0]
  d ++ (List.range (12 - d.length)).map junk

/-- `write_file_u32_template` (lines 139-152): serialise and
`pwrite(fd, buf, sizeof(buf), 0)` the full 12-byte buffer. -/
def write_file_u32 (fd : Int) (val : Nat) (w : World) : WriteResult :=
  if fd ≤ 0 then
    if w.openRet ≤ 0 then
      ⟨-1, 0, [], w.openErrno, 1, 0⟩
    else
      let buf := snprintf_u32 val w.stack
      let p := pwriteModel buf w w.errno0
      let c := conditional_close true p.2.2 w
      ⟨p.1, 0, p.2.1, c.1, 1, c.2⟩
  else
    let buf := snprintf_u32 val w.stack
    let p := pwriteModel buf w w.errno0
    let c := conditional_close false p.2.2 w
    ⟨p.1, 0, p.2.1, c.1, 0, c.2⟩

/-- The fifteen recognised sysfs entries. -/
inductive CpufreqFile
  | affected_cpus
  | bios_limit
  | cpuinfo_cur_freq
  | cpuinfo_max_freq
  | cpuinfo_min_freq
  | cpuinfo_transition_latency
  | related_cpus
  | scaling_available_frequencies
  | scaling_available_governors
  | scaling_cur_freq
  | scaling_driver
  | scaling_governor
  | scaling_max_freq
  | scaling_min_freq
  | scaling_setspeed
deriving DecidableEq, Repr

/-- `cpufreq_bindings_file_to_flags` (lines 193-204). -/
def cpufreq_bindings_file_to_flags : CpufreqFile → Int
  | .scaling_governor => O_RDWR
  | .scaling_max_freq => O_RDWR
  | .scaling_min_freq => O_RDWR
  | .scaling_setspeed => O_RDWR
  | _ => O_RDONLY

/-- Flag selection inside `cpufreq_bindings_file_open` (lines 211-213):
negative caller flags request the resolver's default. -/
def openFlagsUsed (file : CpufreqFile) (flags : Int) : Int :=
  if flags < 0 then cpufreq_bindings_file_to_flags file else flags

/-- `cpufreq_bindings_file_open` (lines 206-215), observed as the flags
passed to `open` and the descriptor `open` returns (the template lookup
is total on the closed enumeration). -/
def cpufreq_bindings_file_open (file : CpufreqFile) (flags : Int) (w : World) :
    Int × Int :=
  (openFlagsUsed file flags, w.openRet)

/-- `cpufreq_bindings_get_affected_cpus` (lines 221-223). -/
def cpufreq_bindings_get_affected_cpus (fd : Int) (arr0 : List Nat)
    (len : Nat) (w : World) : ArrResult :=
  read_file_u32arr fd len arr0 w

/-- `cpufreq_bindings_get_related_cpus` (lines 245-247). -/
def cpufreq_bindings_get_related_cpus (fd : Int) (arr0 : List Nat)
    (len : Nat) (w : World) : ArrResult :=
  read_file_u32arr fd len arr0 w

/-- `cpufreq_bindings_get_scaling_available_frequencies` (lines 249-251). -/
def cpufreq_bindings_get_scaling_available_frequencies (fd : Int)
    (arr0 : List Nat) (len : Nat) (w : World) : ArrResult :=
  read_file_u32arr fd len arr0 w

/-- `cpufreq_bindings_get_cpuinfo_transition_latency` (lines 241-243). -/
def cpufreq_bindings_get_cpuinfo_transition_latency (fd : Int) (w : World) :
    Nat × Nat :=
  read_file_u32 fd w

/-- `cpufreq_bindings_set_scaling_max_freq` (lines 293-295). -/
def cpufreq_bindings_set_scaling_max_freq (fd : Int) (freq : Nat) (w : World) :
    WriteResult :=
  write_file_u32 fd freq w

/-- `cpufreq_bindings_set_scaling_min_freq` (lines 301-303). -/
def cpufreq_bindings_set_scaling_min_freq (fd : Int) (freq : Nat) (w : World) :
    WriteResult :=
  write_file_u32 fd freq w

/-- `cpufreq_bindings_set_scaling_setspeed` (lines 305-307). -/
def cpufreq_bindings_set_scaling_setspeed (fd : Int) (freq : Nat) (w : World) :
    WriteResult :=
  write_file_u32 fd freq w

/-! ## Helper lemmas -/

lemma tokLoop_capacity_exceeded (len : Nat) (toks : List (List Nat)) :
    ∀ (i : Nat) (arr : List Nat) (errn : Nat),
      len < i + toks.length → i ≤ len →
      (tokLoop len toks i arr errn).count = 0 ∧
      (tokLoop len toks i arr errn).errno = ERANGE := by
  induction toks with
  | nil =>
    intro i arr errn h1 h2
    simp at h1
    omega
  | cons t rest ih =>
    intro i arr errn h1 h2
    by_cases hi : i < len
    · by_cases hr : (strtoul t).2
      · simp [tokLoop, hi, hr]
      · simp only [tokLoop, if_pos hi]
        simp only [hr, if_false, Bool.false_eq_true]
        exact ih (i + 1) _ 0 (by simp at h1 ⊢; omega) hi
    · simp [tokLoop, hi]

lemma content_take_pos_of_cstr_ne_nil {content : List Nat} {buflen : Nat}
    (h : cstrOf content buflen ≠ []) : 0 < (content.take buflen).length := by
  by_contra hc
  apply h
  have : content.take buflen = [] := by
    cases he : content.take buflen with
    | nil => rfl
    | cons a l => rw [he] at hc; simp at hc
  simp [cstrOf, this]

/-! ## Claim C1 -/

/-- C1 (amended): for every capacity `len >= 2`, when the array codec's
read yields more space-separated tokens than `len`, the call reports
zero elements and sets `errno` to ERANGE. For `len == 1` this fails
(see the counterexample): the direct-parse branch ignores everything
after the first parsed integer. -/
theorem c1_array_capacity_range (fd : Int) (len : Nat) (arr0 : List Nat)
    (w : World) (hlen : 2 ≤ len) (hfd : 0 < fd ∨ 0 < w.openRet)
    (hp : w.preadErr = none)
    (htoks : len < (splitTokens (cstrOf w.content (len * 13 + 1))).length) :
    (read_file_u32arr fd len arr0 w).ret = 0 ∧
    (read_file_u32arr fd len arr0 w).errno = ERANGE := by
  have hcstr : cstrOf w.content (len * 13 + 1) ≠ [] := by
    intro hnil
    rw [hnil] at htoks
    simp [splitTokens, splitGo] at htoks
  have hpos : 0 < (w.content.take (len * 13 + 1)).length :=
    content_take_pos_of_cstr_ne_nil hcstr
  have hne1 : len ≠ 1 := by omega
  have hloop := tokLoop_capacity_exceeded len
    (splitTokens (cstrOf w.content (len * 13 + 1))) 0 arr0 w.errno0
    (by omega) (by omega)
  have hcl : 0 < w.content.length := by
    have := hpos
    simp [List.length_take] at this
    omega
  have hinner : (arrInner (len * 13 + 1) len arr0 w w.errno0).count = 0 ∧
      (arrInner (len * 13 + 1) len arr0 w w.errno0).errno = ERANGE := by
    simpa [arrInner, hp, hcl, parseBody, hne1, parseBranchTok] using hloop
  rcases hfd with hfd | hopen
  · have hnle : ¬ fd ≤ 0 := by omega
    simp [read_file_u32arr, hnle, conditional_close, hinner.1, hinner.2]
  · by_cases hle : fd ≤ 0
    · have hnle : ¬ w.openRet ≤ 0 := by omega
      simp [read_file_u32arr, hle, hnle, conditional_close, hinner.1, hinner.2]
    · simp [read_file_u32arr, hle, conditional_close, hinner.1, hinner.2]

/-- Concrete world for the C1 counterexample: the file holds `"0 1\n"`
(two tokens), the caller passes a cached descriptor. -/
def wC1 : World :=
  ⟨3, 2, none, [48, 32, 49, 10], none, 9, fun _ => 0, 0⟩

/-- C1 counterexample: with capacity `len == 1` and content `"0 1\n"`
(two space-separated tokens, more than the capacity), the codec returns
element count 1 with `errno` 0 — not zero elements with ERANGE as the
claim states for `len == 1`. -/
theorem c1_counterexample :
    1 < (splitTokens (cstrOf wC1.content (1 * 13 + 1))).length ∧
    (read_file_u32arr 1 1 [7] wC1).ret = 1 ∧
    (read_file_u32arr 1 1 [7] wC1).errno = 0 ∧
    (read_file_u32arr 1 1 [7] wC1).errno ≠ ERANGE := by decide

/-- Concrete world for the C1 witness: the file holds `"0 1 2 3\n"`. -/
def wC1' : World :=
  ⟨3, 2, none, [48, 32, 49, 32, 50, 32, 51, 10], none, 9, fun _ => 0, 0⟩

/-- Witness for the amended C1 theorem at `len = 2`,
content `"0 1 2 3\n"`, cached descriptor 1. -/
theorem c1_witness :
    (2 ≤ 2 ∧ ((0 : Int) < 1 ∨ (0 : Int) < wC1'.openRet) ∧
      wC1'.preadErr = none ∧
      2 < (splitTokens (cstrOf wC1'.content (2 * 13 + 1))).length) ∧
    (read_file_u32arr 1 2 [7, 7] wC1').ret = 0 ∧
    (read_file_u32arr 1 2 [7, 7] wC1').errno = ERANGE := by
  refine ⟨⟨by decide, Or.inl (by decide), rfl, by decide⟩, ?_⟩
  exact c1_array_capacity_range 1 2 [7, 7] wC1' (by decide)
    (Or.inl (by decide)) rfl (by decide)

/-! ## Claim C3 -/

/-- C3 (amended): when the positioned read returns zero bytes, the
string primitive returns 0 and the array codec reports zero elements —
both distinguishable from success — but neither sets any distinct
error code: `errno` is left exactly as it was at entry (no `no-data`
error kind is surfaced). -/
theorem c3_zero_read_no_errno (fd : Int) (len alen : Nat)
    (buf0 arr0 : List Nat) (w : World) (hfd : 0 < fd)
    (hp : w.preadErr = none) (hc : w.content = []) :
    (read_file_str fd len buf0 w).ret = 0 ∧
    (read_file_str fd len buf0 w).errno = w.errno0 ∧
    (read_file_u32arr fd alen arr0 w).ret = 0 ∧
    (read_file_u32arr fd alen arr0 w).errno = w.errno0 := by
  have hnle : ¬ fd ≤ 0 := by omega
  refine ⟨?_, ?_, ?_, ?_⟩ <;>
    simp [read_file_str, read_file_u32arr, preadModel, arrInner, hp, hc,
      hnle, conditional_close]

/-- Concrete world for the C3 counterexample: empty file content,
entry `errno` 0, cached descriptor. -/
def wC3 : World :=
  ⟨3, 2, none, [], none, 9, fun _ => 0, 0⟩

/-- C3 counterexample: a zero-byte positioned read leaves `errno` at
its entry value 0 in both the string primitive and the array codec —
no distinct `no-data` error kind is surfaced to the caller, contrary
to the claim. -/
theorem c3_counterexample :
    (read_file_str 1 4 [65, 66, 67, 68] wC3).ret = 0 ∧
    (read_file_str 1 4 [65, 66, 67, 68] wC3).errno = 0 ∧
    (read_file_u32arr 1 2 [7, 7] wC3).ret = 0 ∧
    (read_file_u32arr 1 2 [7, 7] wC3).errno = 0 := by decide

/-- Witness for the amended C3 theorem: cached descriptor 1, empty
content, nonzero entry errno 7 surviving unchanged. -/
def wC3' : World :=
  ⟨3, 2, none, [], none, 9, fun _ => 0, 7⟩

/-- Witness applying the amended C3 theorem at `wC3'`. -/
theorem c3_witness :
    ((0 : Int) < 1 ∧ wC3'.preadErr = none ∧ wC3'.content = []) ∧
    (read_file_str 1 4 [65, 66, 67, 68] wC3').ret = 0 ∧
    (read_file_str 1 4 [65, 66, 67, 68] wC3').errno = wC3'.errno0 ∧
    (read_file_u32arr 1 2 [7, 7] wC3').ret = 0 ∧
    (read_file_u32arr 1 2 [7, 7] wC3').errno = wC3'.errno0 :=
  ⟨⟨by decide, rfl, rfl⟩,
   c3_zero_read_no_errno 1 4 2 [65, 66, 67, 68] [7, 7] wC3'
     (by decide) rfl rfl⟩

/-! ## Claim C4 -/

/-- Concrete world for C4: the file holds `"abc\n"`, a token that is
not an unsigned integer; entry errno 0, cached descriptor. -/
def wC4 : World :=
  ⟨3, 2, none, [97, 98, 99, 10], none, 9, fun _ => 0, 0⟩

/-- C4 (code evaluation at the failing input): on content `"abc\n"`
with capacity 2, the codec returns element count 1, stores 0 as the
element, and raises no error — `strtoul` performs no conversion on
`"abc"`, returns 0 and leaves `errno` untouched, so the
`if (errno)` check after it never fires. The unparseable token is
silently accepted as the value 0, contradicting the claim (and the
spec's stated intent of aborting with zero elements and a parse
error). -/
theorem c4_code_eval :
    (read_file_u32arr 1 2 [7, 7] wC4).ret = 1 ∧
    (read_file_u32arr 1 2 [7, 7] wC4).arr = [0, 7] ∧
    (read_file_u32arr 1 2 [7, 7] wC4).errno = 0 := by decide

/-! ## Claim C5 -/

/-- C5: whenever the caller passes a non-positive descriptor and the
internal open succeeds, every library read/write template closes the
internally opened descriptor exactly once on its exit path, and the
final `errno` is exactly the `errno` produced by the inner
read/write/parse step — the cleanup close (which may itself set
`errno`, modelled by `World.closeErrno`) does not overwrite it. -/
theorem c5_close_preserves_errno (fd : Int) (len alen val : Nat)
    (arr0 buf0 sbuf : List Nat) (w : World)
    (hfd : fd ≤ 0) (hopen : 0 < w.openRet) :
    ((read_file_u32arr fd alen arr0 w).closes = 1 ∧
      (read_file_u32arr fd alen arr0 w).errno =
        (arrInner (alen * 13 + 1) alen arr0 w w.errno0).errno) ∧
    ((read_file_str fd len buf0 w).closes = 1 ∧
      (read_file_str fd len buf0 w).errno =
        (preadModel len buf0 w w.errno0).2.2) ∧
    ((write_file_str fd sbuf w).closes = 1 ∧
      (write_file_str fd sbuf w).errno =
        (pwriteModel sbuf w w.errno0).2.2) ∧
    ((write_file_u32 fd val w).closes = 1 ∧
      (write_file_u32 fd val w).errno =
        (pwriteModel (snprintf_u32 val w.stack) w w.errno0).2.2) := by
  have hnle : ¬ w.openRet ≤ 0 := by omega
  refine ⟨⟨?_, ?_⟩, ⟨?_, ?_⟩, ⟨?_, ?_⟩, ?_, ?_⟩ <;>
    simp [read_file_u32arr, read_file_str, write_file_str, write_file_u32,
      hfd, hnle, conditional_close]

/-- Concrete world for the C5 witness: open succeeds with descriptor 3,
the inner read fails with errno 13, a close would leave errno 9. -/
def wC5 : World :=
  ⟨3, 2, some 13, [50, 10], none, 9, fun _ => 0, 0⟩

/-- Witness applying the C5 theorem at `wC5` with the absent-handle
sentinel 0: the inner error 13 survives the cleanup close. -/
theorem c5_witness :
    ((0 : Int) ≤ 0 ∧ (0 : Int) < wC5.openRet) ∧
    ((read_file_u32arr 0 2 [7, 7] wC5).closes = 1 ∧
      (read_file_u32arr 0 2 [7, 7] wC5).errno =
        (arrInner (2 * 13 + 1) 2 [7, 7] wC5 wC5.errno0).errno) ∧
    ((read_file_str 0 4 [65, 66, 67, 10] wC5).closes = 1 ∧
      (read_file_str 0 4 [65, 66, 67, 10] wC5).errno =
        (preadModel 4 [65, 66, 67, 10] wC5 wC5.errno0).2.2) ∧
    ((write_file_str 0 [53] wC5).closes = 1 ∧
      (write_file_str 0 [53] wC5).errno =
        (pwriteModel [53] wC5 wC5.errno0).2.2) ∧
    ((write_file_u32 0 5 wC5).closes = 1 ∧
      (write_file_u32 0 5 wC5).errno =
        (pwriteModel (snprintf_u32 5 wC5.stack) wC5 wC5.errno0).2.2) :=
  ⟨⟨by decide, by decide⟩,
   c5_close_preserves_errno 0 4 2 5 [7, 7] [65, 66, 67, 10] [53] wC5
     (by decide) (by decide)⟩

/-! ## Claim C6 -/

/-- C6: with a positive (cached) descriptor no template invokes open or
close; with the non-positive absent-handle sentinel each template
invokes exactly one open and, when that open succeeds, exactly one
close — regardless of how the inner read or write turned out (the
`World` is arbitrary). -/
theorem c6_open_close_discipline (fd : Int) (len alen val : Nat)
    (arr0 buf0 sbuf : List Nat) (w : World) :
    (0 < fd →
      (read_file_u32arr fd alen arr0 w).opens = 0 ∧
      (read_file_u32arr fd alen arr0 w).closes = 0 ∧
      (read_file_str fd len buf0 w).opens = 0 ∧
      (read_file_str fd len buf0 w).closes = 0 ∧
      (write_file_str fd sbuf w).opens = 0 ∧
      (write_file_str fd sbuf w).closes = 0 ∧
      (write_file_u32 fd val w).opens = 0 ∧
      (write_file_u32 fd val w).closes = 0) ∧
    (fd ≤ 0 →
      (read_file_u32arr fd alen arr0 w).opens = 1 ∧
      (read_file_str fd len buf0 w).opens = 1 ∧
      (write_file_str fd sbuf w).opens = 1 ∧
      (write_file_u32 fd val w).opens = 1 ∧
      (0 < w.openRet →
        (read_file_u32arr fd alen arr0 w).closes = 1 ∧
        (read_file_str fd len buf0 w).closes = 1 ∧
        (write_file_str fd sbuf w).closes = 1 ∧
        (write_file_u32 fd val w).closes = 1)) := by
  constructor
  · intro hfd
    have hnle : ¬ fd ≤ 0 := by omega
    refine ⟨?_, ?_, ?_, ?_, ?_, ?_, ?_, ?_⟩ <;>
      simp [read_file_u32arr, read_file_str, write_file_str, write_file_u32,
        hnle, conditional_close]
  · intro hfd
    by_cases ho : w.openRet ≤ 0
    · refine ⟨?_, ?_, ?_, ?_, fun hop => absurd hop (by omega)⟩ <;>
        simp [read_file_u32arr, read_file_str, write_file_str, write_file_u32,
          hfd, ho]
    · refine ⟨?_, ?_, ?_, ?_, fun _ => ⟨?_, ?_, ?_, ?_⟩⟩ <;>
        simp [read_file_u32arr, read_file_str, write_file_str, write_file_u32,
          hfd, ho, conditional_close]

/-- Concrete world for the C6 witness (inner read fails, open would
succeed). -/
def wC6 : World :=
  ⟨3, 2, some 13, [50, 10], none, 9, fun _ => 0, 0⟩

/-- Witness applying the C6 theorem both with a cached descriptor 1 and
with the sentinel 0. -/
theorem c6_witness :
    ((read_file_u32arr 1 2 [7, 7] wC6).opens = 0 ∧
      (read_file_u32arr 1 2 [7, 7] wC6).closes = 0 ∧
      (read_file_str 1 4 [65, 66, 67, 10] wC6).opens = 0 ∧
      (read_file_str 1 4 [65, 66, 67, 10] wC6).closes = 0 ∧
      (write_file_str 1 [53] wC6).opens = 0 ∧
      (write_file_str 1 [53] wC6).closes = 0 ∧
      (write_file_u32 1 5 wC6).opens = 0 ∧
      (write_file_u32 1 5 wC6).closes = 0) ∧
    ((read_file_u32arr 0 2 [7, 7] wC6).opens = 1 ∧
      (read_file_str 0 4 [65, 66, 67, 10] wC6).opens = 1 ∧
      (write_file_str 0 [53] wC6).opens = 1 ∧
      (write_file_u32 0 5 wC6).opens = 1 ∧
      (0 < wC6.openRet →
        (read_file_u32arr 0 2 [7, 7] wC6).closes = 1 ∧
        (read_file_str 0 4 [65, 66, 67, 10] wC6).closes = 1 ∧
        (write_file_str 0 [53] wC6).closes = 1 ∧
        (write_file_u32 0 5 wC6).closes = 1)) :=
  ⟨(c6_open_close_discipline 1 4 2 5 [7, 7] [65, 66, 67, 10] [53] wC6).1
     (by decide),
   (c6_open_close_discipline 0 4 2 5 [7, 7] [65, 66, 67, 10] [53] wC6).2
     (by decide)⟩

/-! ## Claim C7 -/

/-- C7: the flag resolver returns read-write exactly for
`scaling_governor`, `scaling_min_freq`, `scaling_max_freq` and
`scaling_setspeed` (read-only for all others), and
`cpufreq_bindings_file_open` passes the resolver's default to `open`
exactly when the caller's flags are negative, and the caller's flags
unchanged otherwise. -/
theorem c7_flag_resolution (f : CpufreqFile) (flags : Int) (w : World) :
    (cpufreq_bindings_file_to_flags f =
      if f = CpufreqFile.scaling_governor ∨ f = CpufreqFile.scaling_min_freq ∨
         f = CpufreqFile.scaling_max_freq ∨ f = CpufreqFile.scaling_setspeed
      then O_RDWR else O_RDONLY) ∧
    (cpufreq_bindings_file_open f flags w).1 =
      (if flags < 0 then cpufreq_bindings_file_to_flags f else flags) := by
  constructor
  · cases f <;> simp [cpufreq_bindings_file_to_flags]
  · rfl

/-! ## Claim C8 -/

/-- C8: when the `cpuinfo_transition_latency` content parses (via the
base-0 `strtoul` of the `len == 1` branch) to a value congruent to
`0xFFFFFFFF` as a `uint32_t` without overflow of the `unsigned long`
accumulation — which covers both the literal `"4294967295"` and the
kernel's `"-1"` — the getter returns `0xFFFFFFFF` unchanged with a
final `errno` of 0: the codec does not treat this value as a
failure. -/
theorem c8_transition_latency_uint32_max (fd : Int) (w : World) (v : Nat)
    (hfd : 0 < fd) (hp : w.preadErr = none) (hc : w.content ≠ [])
    (hparse : strtoul (cstrOf w.content 14) = (v, false))
    (hv : v % U32_MOD = 4294967295) :
    cpufreq_bindings_get_cpuinfo_transition_latency fd w = (4294967295, 0) := by
  have hnle : ¬ fd ≤ 0 := by omega
  have hcl : 0 < w.content.length := List.length_pos.mpr hc
  have hpos : 0 < (w.content.take 14).length := by
    simp [List.length_take]
    omega
  simp [cpufreq_bindings_get_cpuinfo_transition_latency, read_file_u32,
    read_file_u32arr, arrInner, hp, hnle, hpos, hcl, parseBody,
    parseBranchDirect, hparse, hv, conditional_close]

/-- Concrete world for the C8 witness: the file holds `"-1\n"`, the
kernel's spelling of an unknown transition latency; entry errno 7 to
show no error is raised by the call itself. -/
def wC8 : World :=
  ⟨3, 2, none, [45, 49, 10], none, 9, fun _ => 0, 7⟩

/-- Witness applying the C8 theorem at content `"-1\n"`: `strtoul`
yields `ULONG_MAX`, truncated to `0xFFFFFFFF` on the `uint32_t`
store, and the getter passes it through with no error. -/
theorem c8_witness :
    ((0 : Int) < 1 ∧ wC8.preadErr = none ∧ wC8.content ≠ [] ∧
      strtoul (cstrOf wC8.content 14) = (2 ^ 64 - 1, false) ∧
      (2 ^ 64 - 1) % U32_MOD = 4294967295) ∧
    cpufreq_bindings_get_cpuinfo_transition_latency 1 wC8 = (4294967295, 0) :=
  ⟨⟨by decide, rfl, by decide, by decide, by decide⟩,
   c8_transition_latency_uint32_max 1 wC8 (2 ^ 64 - 1) (by decide) rfl
     (by decide) (by decide) (by decide)⟩

/-! ## Claim C9 -/

lemma decAsciiAux_length_le (fuel : Nat) : ∀ v, (decAsciiAux fuel v).length ≤ fuel := by
  induction fuel with
  | zero => intro v; simp [decAsciiAux]
  | succ n ih =>
    intro v
    by_cases h : v = 0
    · simp [decAsciiAux, h]
    · simp only [decAsciiAux, h, if_false, List.length_append, List.length_cons,
        List.length_nil]
      have := ih (v / 10)
      omega

lemma decAscii_length_le (v : Nat) : (decAscii v).length ≤ 10 := by
  by_cases h : v = 0
  · simp [decAscii, h]
  · simp only [decAscii, h, if_false]
    exact decAsciiAux_length_le 10 v

lemma snprintf_u32_length (val : Nat) (junk : Nat → Nat) :
    (snprintf_u32 val junk).length = 12 := by
  have := decAscii_length_le val
  simp [snprintf_u32]
  omega

lemma snprintf_u32_take (val : Nat) (junk : Nat → Nat) :
    (snprintf_u32 val junk).take ((decAscii val).length + 1) =
      decAscii val ++ [0] := by
  unfold snprintf_u32
  have h : (decAscii val ++ [0]).length = (decAscii val).length + 1 := by simp
  rw [← h, List.take_left]

/-- C9: for every `uint32_t` value, the scalar write serialises the
value as decimal ASCII followed by a NUL into the 12-byte buffer and
then writes the whole 12-byte buffer width at offset 0 — the byte count
written is 12 regardless of how many digits the value has. -/
theorem c9_write_serialises_full_buffer (fd : Int) (val : Nat) (w : World)
    (hval : val < U32_MOD) (hfd : 0 < fd) (hw : w.pwriteErr = none) :
    (write_file_u32 fd val w).ret = 12 ∧
    (write_file_u32 fd val w).offset = 0 ∧
    (write_file_u32 fd val w).data.length = 12 ∧
    (write_file_u32 fd val w).data.take ((decAscii val).length + 1) =
      decAscii val ++ [0] := by
  have hnle : ¬ fd ≤ 0 := by omega
  simp [write_file_u32, hnle, pwriteModel, hw, conditional_close,
    snprintf_u32_length, snprintf_u32_take]

/-- Concrete world for the C9 witness. -/
def wC9 : World :=
  ⟨3, 2, none, [], none, 9, fun _ => 0, 0⟩

/-- Witness applying the C9 theorem at the one-digit value 5 (written
bytes: `"5"`, a NUL, and ten padding bytes — 12 in total). -/
theorem c9_witness :
    (5 < U32_MOD ∧ (0 : Int) < 1 ∧ wC9.pwriteErr = none) ∧
    (write_file_u32 1 5 wC9).ret = 12 ∧
    (write_file_u32 1 5 wC9).offset = 0 ∧
    (write_file_u32 1 5 wC9).data.length = 12 ∧
    (write_file_u32 1 5 wC9).data.take ((decAscii 5).length + 1) =
      decAscii 5 ++ [0] :=
  ⟨⟨by decide, by decide, rfl⟩,
   c9_write_serialises_full_buffer 1 5 wC9 (by decide) (by decide) rfl⟩

/-! ## Claim C10 -/

/-- C10: with a caller-supplied positive descriptor, when the
positioned read fails (returns zero or negative), the newline-trim
step still runs: the caller's buffer comes back as `stripNewline` of
its previous contents, i.e. a NUL byte is written at the scan's
stopping point (the first pre-existing newline or NUL); only when the
internal open itself fails is the buffer returned untouched. -/
theorem c10_trim_runs_on_read_failure (len : Nat) (buf0 : List Nat)
    (w : World) (fd fd2 : Int) (hfd : 0 < fd)
    (hfail : w.preadErr ≠ none ∨ w.content = [])
    (hfd2 : fd2 ≤ 0) (hopen : w.openRet ≤ 0) :
    (read_file_str fd len buf0 w).buf = stripNewline buf0 ∧
    (strcspnNl buf0 < buf0.length →
      (read_file_str fd len buf0 w).buf[strcspnNl buf0]? = some 0) ∧
    (read_file_str fd2 len buf0 w).buf = buf0 := by
  have hnle : ¬ fd ≤ 0 := by omega
  have h1 : (read_file_str fd len buf0 w).buf = stripNewline buf0 := by
    rcases hfail with h | h
    · cases hp : w.preadErr with
      | none => exact absurd hp h
      | some e => simp [read_file_str, hnle, preadModel, hp]
    · cases hp : w.preadErr with
      | some e => simp [read_file_str, hnle, preadModel, hp]
      | none => simp [read_file_str, hnle, preadModel, hp, h]
  refine ⟨h1, ?_, ?_⟩
  · intro hlt
    rw [h1]
    simp only [stripNewline]
    exact List.getElem?_set_eq_of_lt 0 hlt
  · simp [read_file_str, hfd2, hopen]

/-- Concrete world for the C10 witness: `pread` fails with errno 5 and
the internal open would fail too (used for the untouched-buffer
conjunct). -/
def wC10 : World :=
  ⟨-1, 2, some 5, [], none, 9, fun _ => 0, 0⟩

/-- Witness applying the C10 theorem at buffer `"AB\nD"`: the newline
at index 2 is overwritten with NUL even though the read failed. -/
theorem c10_witness :
    ((0 : Int) < 1 ∧ (wC10.preadErr ≠ none ∨ wC10.content = []) ∧
      (0 : Int) ≤ 0 ∧ wC10.openRet ≤ 0 ∧
      strcspnNl [65, 66, 10, 68] < ([65, 66, 10, 68] : List Nat).length) ∧
    (read_file_str 1 4 [65, 66, 10, 68] wC10).buf =
      stripNewline [65, 66, 10, 68] ∧
    (read_file_str 1 4 [65, 66, 10, 68] wC10).buf[strcspnNl [65, 66, 10, 68]]? =
      some 0 ∧
    (read_file_str 0 4 [65, 66, 10, 68] wC10).buf = [65, 66, 10, 68] := by
  have h := c10_trim_runs_on_read_failure 4 [65, 66, 10, 68] wC10 1 0
    (by decide) (Or.inl (by decide)) (by decide) (by decide)
  exact ⟨⟨by decide, Or.inl (by decide), by decide, by decide, by decide⟩,
    h.1, h.2.1 (by decide), h.2.2⟩

/-! ## Claim C2: tokenisation lemmas -/

lemma splitGo_replicate_space (a : Nat) (l : List Nat) :
    splitGo (List.replicate a 32 ++ l) [] = splitGo l [] := by
  induction a with
  | zero => simp
  | succ n ih => simpa [List.replicate_succ, splitGo] using ih

lemma splitGo_all_space (b : Nat) :
    ∀ acc : List Nat,
      splitGo (List.replicate b 32) acc = if acc = [] then [] else [acc.reverse] := by
  induction b with
  | zero => intro acc; simp [splitGo]
  | succ n ih =>
    intro acc
    by_cases h : acc = [] <;>
      simp [List.replicate_succ, splitGo, h, ih []]

lemma splitGo_no_space :
    ∀ (t u acc : List Nat), (∀ x ∈ t, x ≠ 32) →
      splitGo (t ++ u) acc = splitGo u (t.reverse ++ acc) := by
  intro t
  induction t with
  | nil => intro u acc _; simp
  | cons c t' ih =>
    intro u acc h
    have hc : c ≠ 32 := h c (by simp)
    have ht' : ∀ x ∈ t', x ≠ 32 := fun x hx => h x (by simp [hx])
    simp only [List.cons_append, splitGo, if_neg hc, List.append_eq]
    rw [ih u (c :: acc) ht']
    simp

lemma splitTokens_single (a b : Nat) (t : List Nat) (ht : t ≠ [])
    (h32 : ∀ x ∈ t, x ≠ 32) :
    splitTokens (List.replicate a 32 ++ t ++ List.replicate b 32) = [t] := by
  unfold splitTokens
  rw [List.append_assoc, splitGo_replicate_space,
    splitGo_no_space t (List.replicate b 32) [] h32, splitGo_all_space]
  simp [ht]

/-! ## Claim C2: strtoul lemmas -/

lemma digitInBase_space (base : Nat) : digitInBase base 32 = none := rfl

lemma parseDigitsAcc_append_spaces (base b : Nat) :
    ∀ (l : List Nat) (acc : Nat),
      parseDigitsAcc base (l ++ List.replicate b 32) acc =
        parseDigitsAcc base l acc := by
  intro l
  induction l with
  | nil =>
    intro acc
    cases b with
    | zero => simp
    | succ n => simp [List.replicate_succ, parseDigitsAcc, digitInBase_space]
  | cons c rest ih =>
    intro acc
    cases hd : digitInBase base c with
    | none => simp [parseDigitsAcc, hd]
    | some d => simp [parseDigitsAcc, hd, ih]

lemma headIsHex_append_spaces (r : List Nat) (b : Nat) :
    headIsHex (r ++ List.replicate b 32) = headIsHex r := by
  cases r with
  | nil => cases b <;> rfl
  | cons d r' => simp [headIsHex]

lemma digitsOf_append_spaces (s2 : List Nat) (b : Nat) :
    digitsOf (s2 ++ List.replicate b 32) = digitsOf s2 := by
  cases s2 with
  | nil => cases b <;> rfl
  | cons c r =>
    by_cases h48 : c = 48
    · subst h48
      cases r with
      | nil => cases b <;> rfl
      | cons c2 r2 =>
        by_cases hx : (c2 = 120 ∨ c2 = 88) ∧ headIsHex r2
        · have hx' : (c2 = 120 ∨ c2 = 88) ∧
              headIsHex (r2 ++ List.replicate b 32) = true := by
            rw [headIsHex_append_spaces]
            exact hx
          have l1 : digitsOf ((48 : Nat) :: c2 :: (r2 ++ List.replicate b 32)) =
              parseDigitsAcc 16 (r2 ++ List.replicate b 32) 0 := by
            simp [digitsOf, detectBase, hx']
          have r1 : digitsOf ((48 : Nat) :: c2 :: r2) =
              parseDigitsAcc 16 r2 0 := by
            simp [digitsOf, detectBase, hx]
          simpa [l1, r1] using parseDigitsAcc_append_spaces 16 b r2 0
        · have hx' : ¬ ((c2 = 120 ∨ c2 = 88) ∧
              headIsHex (r2 ++ List.replicate b 32) = true) := by
            rw [headIsHex_append_spaces]
            exact hx
          have l1 : digitsOf ((48 : Nat) :: c2 :: (r2 ++ List.replicate b 32)) =
              parseDigitsAcc 8 ((48 :: c2 :: r2) ++ List.replicate b 32) 0 := by
            simp [digitsOf, detectBase, hx']
          have r1 : digitsOf ((48 : Nat) :: c2 :: r2) =
              parseDigitsAcc 8 (48 :: c2 :: r2) 0 := by
            simp [digitsOf, detectBase, hx]
          simpa [l1, r1] using
            parseDigitsAcc_append_spaces 8 b (48 :: c2 :: r2) 0
    · have h2 := parseDigitsAcc_append_spaces 10 b (c :: r) 0
      simp only [List.cons_append] at h2 ⊢
      have l1 : digitsOf (c :: (r ++ List.replicate b 32)) =
          parseDigitsAcc 10 (c :: (r ++ List.replicate b 32)) 0 := by
        simp [digitsOf, detectBase, h48]
      have r1 : digitsOf (c :: r) = parseDigitsAcc 10 (c :: r) 0 := by
        simp [digitsOf, detectBase, h48]
      rw [l1, r1]
      exact h2

lemma parseSignFn_cons_append_spaces (c : Nat) (r : List Nat) (b : Nat) :
    parseSignFn (c :: (r ++ List.replicate b 32)) =
      ((parseSignFn (c :: r)).1,
        (parseSignFn (c :: r)).2 ++ List.replicate b 32) := by
  by_cases h43 : c = 43
  · simp [parseSignFn, h43]
  · by_cases h45 : c = 45 <;> simp [parseSignFn, h43, h45]

lemma strtoulCore_append_spaces (s : List Nat) (b : Nat) :
    strtoulCore (s ++ List.replicate b 32) = strtoulCore s := by
  cases s with
  | nil => cases b <;> rfl
  | cons c r =>
    simp only [strtoulCore, List.cons_append]
    rw [parseSignFn_cons_append_spaces]
    simp [digitsOf_append_spaces]

lemma dropWhile_isWS_replicate_append (a : Nat) (l : List Nat) :
    (List.replicate a 32 ++ l).dropWhile isWS = l.dropWhile isWS := by
  induction a with
  | zero => simp
  | succ n ih =>
    simpa [List.replicate_succ, List.dropWhile_cons, isWS] using ih

lemma dropWhile_isWS_append (t u : List Nat) :
    (t ++ u).dropWhile isWS =
      if t.dropWhile isWS = [] then u.dropWhile isWS
      else t.dropWhile isWS ++ u := by
  induction t with
  | nil => simp
  | cons c t' ih =>
    by_cases h : isWS c
    · simpa [List.dropWhile_cons, h] using ih
    · simp [List.dropWhile_cons, h]

lemma dropWhile_isWS_all_space (b : Nat) :
    (List.replicate b 32).dropWhile isWS = [] := by
  induction b with
  | zero => rfl
  | succ n ih =>
    simpa [List.replicate_succ, List.dropWhile_cons, isWS] using ih

lemma strtoul_pad (a b : Nat) (t : List Nat) :
    strtoul (List.replicate a 32 ++ t ++ List.replicate b 32) = strtoul t := by
  unfold strtoul
  rw [List.append_assoc, dropWhile_isWS_replicate_append, dropWhile_isWS_append]
  by_cases h : t.dropWhile isWS = []
  · rw [if_pos h, h, dropWhile_isWS_all_space]
  · rw [if_neg h]
    exact strtoulCore_append_spaces _ b

/-! ## Claim C2 -/

/-- C2 (amended): the `len == 1` direct-parse branch and the tokenising
branch at capacity 1 produce identical count, stored element and errno
exactly on single-token content — content consisting of one
space-delimited token (optionally surrounded by spaces). On
well-formed multi-token content they differ (see the counterexample):
the direct branch parses the first integer and ignores the rest, while
the tokenising branch reports zero elements with ERANGE. -/
theorem c2_direct_tok_equiv_single_token (a b : Nat) (t arr : List Nat)
    (e0 : Nat) (ht : t ≠ []) (h32 : ∀ x ∈ t, x ≠ 32) :
    parseBranchDirect (List.replicate a 32 ++ t ++ List.replicate b 32) arr =
      parseBranchTok 1 (List.replicate a 32 ++ t ++ List.replicate b 32)
        arr e0 := by
  unfold parseBranchDirect parseBranchTok
  rw [splitTokens_single a b t ht h32, strtoul_pad]
  by_cases hr : (strtoul t).2 <;> simp [tokLoop, hr]

/-- Concrete world for the C2 counterexample: the file holds `"0 1\n"`,
a well-formed two-element list of unsigned integers. -/
def wC2 : World :=
  ⟨3, 2, none, [48, 32, 49, 10], none, 9, fun _ => 0, 0⟩

/-- C2 counterexample: on the well-formed content `"0 1\n"` the
`len == 1` call (direct-parse branch) returns count 1 with errno 0,
while the tokenising branch at capacity 1 returns count 0 with ERANGE
— the observable results differ. -/
theorem c2_counterexample :
    (read_file_u32arr 1 1 [7] wC2).ret = 1 ∧
    (read_file_u32arr 1 1 [7] wC2).errno = 0 ∧
    parseBranchTok 1 (cstrOf wC2.content (1 * 13 + 1)) [7] wC2.errno0 =
      ⟨0, [0], ERANGE⟩ ∧
    parseBranchDirect (cstrOf wC2.content (1 * 13 + 1)) [7] ≠
      parseBranchTok 1 (cstrOf wC2.content (1 * 13 + 1)) [7] wC2.errno0 := by
  decide

/-- Witness applying the amended C2 theorem on the single-token
content `" 2500000\n  "` (one space before, two after). -/
theorem c2_witness :
    (([50, 53, 48, 48, 48, 48, 48, 10] : List Nat) ≠ [] ∧
      ∀ x ∈ ([50, 53, 48, 48, 48, 48, 48, 10] : List Nat), x ≠ 32) ∧
    parseBranchDirect
        (List.replicate 1 32 ++ [50, 53, 48, 48, 48, 48, 48, 10] ++
          List.replicate 2 32) [7] =
      parseBranchTok 1
        (List.replicate 1 32 ++ [50, 53, 48, 48, 48, 48, 48, 10] ++
          List.replicate 2 32) [7] 5 :=
  ⟨⟨by decide, by decide⟩,
   c2_direct_tok_equiv_single_token 1 2 [50, 53, 48, 48, 48, 48, 48, 10] [7] 5
     (by decide) (by decide)⟩
